import Mathlib

/-!
Verification of the nestanak-info monitoring service (Go) against its
natural-language specification.  The Go source is shallowly embedded:
pure functions become Lean functions, stateful methods become explicit
state-passing functions, Go time.Time and time.Duration become Int
nanoseconds, Go maps become functions into Option, and the external
email transport becomes an oracle parameter.  Each definition mirrors
one function of the source (monitor.go, state persistence file,
utils.go, email.go, config.go).
-/

/-! ## Time model: Go time.Time and time.Duration as Int nanoseconds -/

def nsPerSecond : Int := 1000000000

def minuteNS : Int := 60 * nsPerSecond

def hourNS : Int := 3600 * nsPerSecond

def dayNS : Int := 24 * hourNS

/-- Generic pointwise map update; Go map assignment m[k] = v.  Setting
v = none models Go delete(m, k) for Option-valued maps. -/
def upd {κ β : Type} [DecidableEq κ] (m : κ → β) (k : κ) (v : β) : κ → β :=
  fun k2 => if k2 = k then v else m k2

/-- The prune step used throughout monitor.go and the state store:
keep only timestamps strictly after the cutoff (Go t.After(cutoff)). -/
def pruneWindow (cutoff : Int) (l : List Int) : List Int :=
  l.filter (fun t => decide (cutoff < t))

/-! ## Persistent state store (state persistence source file)

MatchRecord and ServiceState mirror types.go; the sync.RWMutex and the
RecentEmailNotifications display list (bounded UI history, not consulted
by any gate or dedup decision) are not modelled.  sha256 in
GenerateMatchHash is modelled as the identity on the normalized
url|date|time|address string (a collision-free abstraction; every claim
treats the fingerprint as an abstract key). -/

structure MatchRecord where
  firstSeen : Int
  lastNotified : Int
  count : Nat
  date : String
  timeStr : String
  address : String
  url : String
deriving DecidableEq

structure ServiceState where
  emailsSentPerURLToday : String → Option (List Int)
  errorEmailsSentPerURLToday : String → Option (List Int)
  lastAlertTimes : String → Option Int
  seenMatches : String → Option MatchRecord
  lastSaved : Int

/-- NewServiceState: fresh state with all maps empty. -/
def NewServiceState (now : Int) : ServiceState :=
  { emailsSentPerURLToday := fun _ => none
    errorEmailsSentPerURLToday := fun _ => none
    lastAlertTimes := fun _ => none
    seenMatches := fun _ => none
    lastSaved := now }

/-- GenerateMatchHash: the normalized incident string (hashing abstracted). -/
def GenerateMatchHash (url date timeStr address : String) : String :=
  url ++ "|" ++ date ++ "|" ++ timeStr ++ "|" ++ address

/-- ServiceState.IsMatchSeen: a record exists and time.Since(LastNotified)
is not greater than maxAge. -/
def ServiceState.IsMatchSeen (s : ServiceState) (hash : String) (maxAge now : Int) : Bool :=
  match s.seenMatches hash with
  | none => false
  | some record => if maxAge < now - record.lastNotified then false else true

/-- ServiceState.RecordMatch: refresh LastNotified and increment Count if
the record exists, else create it with Count 1. -/
def ServiceState.RecordMatch (s : ServiceState) (hash url date timeStr address : String)
    (now : Int) : ServiceState :=
  { s with
      seenMatches :=
        upd s.seenMatches hash
          (some (match s.seenMatches hash with
            | some record => { record with lastNotified := now, count := record.count + 1 }
            | none =>
              { firstSeen := now, lastNotified := now, count := 1,
                date := date, timeStr := timeStr, address := address, url := url })) }

/-- cleanupOldDataUnsafe, rendered pointwise (the Go loops treat every
map key independently): drop notification timestamps not strictly after
now - 24h, deleting keys whose list empties; delete last-alert entries
strictly before now - 24h; delete match records whose LastNotified is
strictly before now - 7d. -/
def ServiceState.CleanupOldData (s : ServiceState) (now : Int) : ServiceState :=
  { emailsSentPerURLToday := fun url =>
      match s.emailsSentPerURLToday url with
      | none => none
      | some ts =>
        let validTimes := pruneWindow (now - 24 * hourNS) ts
        if validTimes.length > 0 then some validTimes else none
    errorEmailsSentPerURLToday := fun url =>
      match s.errorEmailsSentPerURLToday url with
      | none => none
      | some ts =>
        let validTimes := pruneWindow (now - 24 * hourNS) ts
        if validTimes.length > 0 then some validTimes else none
    lastAlertTimes := fun key =>
      match s.lastAlertTimes key with
      | none => none
      | some t => if t < now - 24 * hourNS then none else some t
    seenMatches := fun hash =>
      match s.seenMatches hash with
      | none => none
      | some record =>
        if record.lastNotified < now - 7 * 24 * hourNS then none else some record
    lastSaved := s.lastSaved }

/-- ServiceState.SaveState: fails when no path is configured; otherwise
runs retention cleanup, stamps LastSaved and returns the state that is
serialized and atomically renamed onto the path (marshalling and file
I/O are outside the model). -/
def ServiceState.SaveState (s : ServiceState) (filePath : String) (now : Int) :
    Option ServiceState :=
  if filePath = "" then none
  else some { s.CleanupOldData now with lastSaved := now }

/-- LoadState over an abstract file system (path to Option contents) and
an abstract JSON decoder parseState.  tsFmt stands for the Go-formatted
timestamp now.Format, supplied externally.  Absent file: fresh state.
Unparsable file: rename it to path.corrupted.timestamp and return a
fresh state.  Parsable file: run retention cleanup on the decoded state. -/
def LoadState (parseState : String → Option ServiceState) (tsFmt : String)
    (fs : String → Option String) (filePath : String) (now : Int) :
    ServiceState × (String → Option String) :=
  if filePath = "" then (NewServiceState now, fs)
  else
    match fs filePath with
    | none => (NewServiceState now, fs)
    | some data =>
      match parseState data with
      | none =>
        let backupPath := filePath ++ ".corrupted." ++ tsFmt
        (NewServiceState now,
          fun p => if p = backupPath then some data else if p = filePath then none else fs p)
      | some st => (st.CleanupOldData now, fs)

/-! ## Claims about the persistent state store -/

theorem lengthNeSelfAppendCorrupted (p t : String) : p ≠ p ++ ".corrupted." ++ t := by
  intro h
  have h2 := congrArg String.length h
  rw [String.length_append, String.length_append] at h2
  have h3 : (".corrupted." : String).length = 11 := by decide
  omega

theorem cleanupPost (s : ServiceState) (now : Int) :
    (∀ url l, (s.CleanupOldData now).emailsSentPerURLToday url = some l →
        l ≠ [] ∧ ∀ t ∈ l, now - 24 * hourNS < t)
    ∧ (∀ url l, (s.CleanupOldData now).errorEmailsSentPerURLToday url = some l →
        l ≠ [] ∧ ∀ t ∈ l, now - 24 * hourNS < t)
    ∧ (∀ k t, (s.CleanupOldData now).lastAlertTimes k = some t → now - 24 * hourNS ≤ t)
    ∧ (∀ h r, (s.CleanupOldData now).seenMatches h = some r →
        now - 7 * 24 * hourNS ≤ r.lastNotified) := by
  refine ⟨?_, ?_, ?_, ?_⟩
  · intro url l hl
    simp only [ServiceState.CleanupOldData] at hl
    cases hmap : s.emailsSentPerURLToday url with
    | none => simp [hmap] at hl
    | some ts =>
      simp only [hmap] at hl
      by_cases hlen : (pruneWindow (now - 24 * hourNS) ts).length > 0
      · simp only [hlen, if_pos] at hl
        cases hl
        constructor
        · intro hnil
          rw [hnil] at hlen
          simp at hlen
        · intro t ht
          have := List.of_mem_filter ht
          simpa using this
      · simp [hlen] at hl
  · intro url l hl
    simp only [ServiceState.CleanupOldData] at hl
    cases hmap : s.errorEmailsSentPerURLToday url with
    | none => simp [hmap] at hl
    | some ts =>
      simp only [hmap] at hl
      by_cases hlen : (pruneWindow (now - 24 * hourNS) ts).length > 0
      · simp only [hlen, if_pos] at hl
        cases hl
        constructor
        · intro hnil
          rw [hnil] at hlen
          simp at hlen
        · intro t ht
          have := List.of_mem_filter ht
          simpa using this
      · simp [hlen] at hl
  · intro k t ht
    simp only [ServiceState.CleanupOldData] at ht
    cases hmap : s.lastAlertTimes k with
    | none => simp [hmap] at ht
    | some t0 =>
      simp only [hmap] at ht
      by_cases hc : t0 < now - 24 * hourNS
      · simp [hc] at ht
      · simp only [hc, if_neg, if_false] at ht
        cases ht
        omega
  · intro h r hr
    simp only [ServiceState.CleanupOldData] at hr
    cases hmap : s.seenMatches h with
    | none => simp [hmap] at hr
    | some r0 =>
      simp only [hmap] at hr
      by_cases hc : r0.lastNotified < now - 7 * 24 * hourNS
      · rw [if_pos hc] at hr
        exact Option.noConfusion hr
      · rw [if_neg hc] at hr
        injection hr with hr2
        rw [← hr2]
        omega

/-- Claim C3: IsMatchSeen is true iff a record exists for the fingerprint
and the time elapsed since its LastNotified is at most maxAge; RecordMatch
refreshes LastNotified to the current time on every call (creating the
record with count 1 if absent, incrementing count if present), so after
RecordMatch at time t0 the fingerprint stays seen exactly while
now - t0 is at most maxAge. -/
theorem c3_match_seen :
    (∀ (s : ServiceState) (f : String) (maxAge now : Int),
        s.IsMatchSeen f maxAge now = true ↔
          ∃ r, s.seenMatches f = some r ∧ now - r.lastNotified ≤ maxAge)
    ∧ (∀ (s : ServiceState) (f url date timeStr address : String) (t0 : Int),
        (∃ r2, (s.RecordMatch f url date timeStr address t0).seenMatches f = some r2 ∧
          r2.lastNotified = t0 ∧
          r2.count = (match s.seenMatches f with | some r => r.count + 1 | none => 1))
        ∧ ∀ maxAge now,
            (s.RecordMatch f url date timeStr address t0).IsMatchSeen f maxAge now
              = decide (now - t0 ≤ maxAge)) := by
  constructor
  · intro s f maxAge now
    unfold ServiceState.IsMatchSeen
    cases hmap : s.seenMatches f with
    | none => simp
    | some r =>
      have hred : (match some r with
          | none => false
          | some record => if maxAge < now - record.lastNotified then false else true)
          = (if maxAge < now - r.lastNotified then false else true) := rfl
      rw [hred]
      by_cases hc : maxAge < now - r.lastNotified
      · rw [if_pos hc]
        simp only [Bool.false_eq_true, false_iff]
        rintro ⟨r2, hr2, hle⟩
        injection hr2 with hr2
        rw [← hr2] at hle
        omega
      · rw [if_neg hc]
        simp only [true_iff]
        exact ⟨r, rfl, by omega⟩
  · intro s f url date timeStr address t0
    constructor
    · refine ⟨(match s.seenMatches f with
          | some record => { record with lastNotified := t0, count := record.count + 1 }
          | none =>
            { firstSeen := t0, lastNotified := t0, count := 1,
              date := date, timeStr := timeStr, address := address, url := url }),
        ?_, ?_, ?_⟩
      · simp [ServiceState.RecordMatch, upd]
      · cases hmap : s.seenMatches f <;> simp [hmap]
      · cases hmap : s.seenMatches f <;> simp [hmap]
    · intro maxAge now
      unfold ServiceState.IsMatchSeen
      show (match (upd s.seenMatches f _) f with
            | none => false
            | some record => if maxAge < now - record.lastNotified then false else true) = _
      rw [upd, if_pos rfl]
      cases hmap : s.seenMatches f with
      | none =>
        simp only [hmap]
        by_cases hc : maxAge < now - t0
        · rw [if_pos hc]
          simp
          omega
        · rw [if_neg hc]
          simp
          omega
      | some r =>
        simp only [hmap]
        by_cases hc : maxAge < now - t0
        · rw [if_pos hc]
          simp
          omega
        · rw [if_neg hc]
          simp
          omega

/-- Claim C5: LoadState never fails fatally.  An absent file (and an
unconfigured empty path) yields a fresh empty state with the file system
untouched; a present but unparsable file yields a fresh empty state, the
corrupt content is preserved under the backup name
path.corrupted.timestamp, and the original path no longer holds it. -/
theorem c5_load_never_fatal :
    ∀ (parseState : String → Option ServiceState) (tsFmt : String)
      (fs : String → Option String) (filePath : String) (now : Int),
    (fs filePath = none →
        LoadState parseState tsFmt fs filePath now = (NewServiceState now, fs))
    ∧ (filePath = "" →
        LoadState parseState tsFmt fs filePath now = (NewServiceState now, fs))
    ∧ (∀ data, filePath ≠ "" → fs filePath = some data → parseState data = none →
        (LoadState parseState tsFmt fs filePath now).1 = NewServiceState now
        ∧ (LoadState parseState tsFmt fs filePath now).2
            (filePath ++ ".corrupted." ++ tsFmt) = some data
        ∧ (LoadState parseState tsFmt fs filePath now).2 filePath = none) := by
  intro parseState tsFmt fs filePath now
  refine ⟨?_, ?_, ?_⟩
  · intro habs
    unfold LoadState
    by_cases hp : filePath = ""
    · rw [if_pos hp]
    · rw [if_neg hp, habs]
  · intro hp
    unfold LoadState
    rw [if_pos hp]
  · intro data hp hdata hparse
    have hne := lengthNeSelfAppendCorrupted filePath tsFmt
    have hload : LoadState parseState tsFmt fs filePath now =
        (NewServiceState now,
          fun p => if p = filePath ++ ".corrupted." ++ tsFmt then some data
                   else if p = filePath then none else fs p) := by
      unfold LoadState
      simp only [if_neg hp, hdata, hparse]
    rw [hload]
    refine ⟨rfl, ?_, ?_⟩
    · simp
    · simp [hne]

/-- Claim C6: retention cleanup runs before every save and on every
successful load: a successful SaveState returns exactly the cleaned
state (with LastSaved stamped), a successful parse in LoadState returns
the cleaned decoded state, and in both cases every retained per-url
notification or error-notification timestamp is within the last 24
hours (with emptied url lists removed), every retained last-alert entry
is within the last 24 hours, and every retained match record has
LastNotified within the last 7 days. -/
theorem c6_retention_cleanup :
    (∀ (s : ServiceState) (filePath : String) (now : Int) (s2 : ServiceState),
        s.SaveState filePath now = some s2 →
        s2 = { s.CleanupOldData now with lastSaved := now }
        ∧ (∀ url l, s2.emailsSentPerURLToday url = some l →
              l ≠ [] ∧ ∀ t ∈ l, now - 24 * hourNS < t)
        ∧ (∀ url l, s2.errorEmailsSentPerURLToday url = some l →
              l ≠ [] ∧ ∀ t ∈ l, now - 24 * hourNS < t)
        ∧ (∀ k t, s2.lastAlertTimes k = some t → now - 24 * hourNS ≤ t)
        ∧ (∀ h r, s2.seenMatches h = some r → now - 7 * 24 * hourNS ≤ r.lastNotified))
    ∧ (∀ parseState tsFmt fs filePath (now : Int) data s0,
        filePath ≠ "" → fs filePath = some data → parseState data = some s0 →
        (LoadState parseState tsFmt fs filePath now).1 = s0.CleanupOldData now
        ∧ (∀ url l, (LoadState parseState tsFmt fs filePath now).1.emailsSentPerURLToday url
              = some l → l ≠ [] ∧ ∀ t ∈ l, now - 24 * hourNS < t)
        ∧ (∀ k t, (LoadState parseState tsFmt fs filePath now).1.lastAlertTimes k = some t →
              now - 24 * hourNS ≤ t)
        ∧ (∀ h r, (LoadState parseState tsFmt fs filePath now).1.seenMatches h = some r →
              now - 7 * 24 * hourNS ≤ r.lastNotified)) := by
  constructor
  · intro s filePath now s2 hsave
    unfold ServiceState.SaveState at hsave
    by_cases hp : filePath = ""
    · rw [if_pos hp] at hsave
      exact Option.noConfusion hsave
    · rw [if_neg hp] at hsave
      injection hsave with hsave
      subst hsave
      obtain ⟨h1, h2, h3, h4⟩ := cleanupPost s now
      exact ⟨rfl, h1, h2, h3, h4⟩
  · intro parseState tsFmt fs filePath now data s0 hp hdata hparse
    have hload : LoadState parseState tsFmt fs filePath now = (s0.CleanupOldData now, fs) := by
      unfold LoadState
      simp only [if_neg hp, hdata, hparse]
    rw [hload]
    obtain ⟨h1, _h2, h3, h4⟩ := cleanupPost s0 now
    exact ⟨rfl, h1, h3, h4⟩

/-! ## Monitor: configuration, in-memory state, gate (monitor.go)

Config keeps only the fields the modelled paths read (config.go); a
validated configuration has positive caps and a check interval of at
least 5 seconds (ValidateConfig).  MonitorState mirrors the Monitor
struct fields the claims touch; locks, loggers, caches, the HTTP layer
and the event ring buffer (modelled separately below) are omitted. -/

structure Config where
  checkIntervalSeconds : Nat
  alertCooldownMinutes : Int
  emailRateLimitPerHour : Int
  maxEmailsPerURLPerDay : Int
  recipients : List String
  errorRecipient : String

structure AlertKey where
  url : String
  alertType : String
deriving DecidableEq

structure MonitorState where
  lastAlertTime : AlertKey → Option Int
  emailsSentThisHour : List Int
  emailsSentPerURLToday : String → Option (List Int)
  errorEmailsSentPerURLToday : String → Option (List Int)
  foundURLs : String → Bool
  unreachableURLs : String → Bool
  lastURLDownTime : String → Option Int
  svcState : Option ServiceState

/-- canSendAlert: cooldown on the (url, alertType) key, then the global
hourly rate limit (pruning the global timestamp list in place), then the
per-url daily limit (pruning that url entry in place when it exists).
Returns the decision together with the rewritten state. -/
def canSendAlert (cfg : Config) (m : MonitorState) (url alertType : String) (now : Int) :
    Bool × MonitorState :=
  let key : AlertKey := { url := url, alertType := alertType }
  let cooldownHit : Bool :=
    match m.lastAlertTime key with
    | some lastAlert => decide (now - lastAlert < cfg.alertCooldownMinutes * minuteNS)
    | none => false
  if cooldownHit then (false, m)
  else
    let validEmails := pruneWindow (now - hourNS) m.emailsSentThisHour
    let m1 := { m with emailsSentThisHour := validEmails }
    if cfg.emailRateLimitPerHour ≤ (validEmails.length : Int) then (false, m1)
    else
      match m1.emailsSentPerURLToday url with
      | some urlEmails =>
        let validURLEmails := pruneWindow (now - 24 * hourNS) urlEmails
        let m2 := { m1 with
          emailsSentPerURLToday := upd m1.emailsSentPerURLToday url (some validURLEmails) }
        if cfg.maxEmailsPerURLPerDay ≤ (validURLEmails.length : Int) then (false, m2)
        else (true, m2)
      | none => (true, m1)

/-- recordAlert: unconditionally stamp the (url, alertType) last-alert
time and append now to the global and per-url sent lists. -/
def recordAlert (m : MonitorState) (url alertType : String) (now : Int) : MonitorState :=
  { m with
      lastAlertTime := upd m.lastAlertTime { url := url, alertType := alertType } (some now),
      emailsSentThisHour := m.emailsSentThisHour ++ [now],
      emailsSentPerURLToday :=
        upd m.emailsSentPerURLToday url
          (some ((m.emailsSentPerURLToday url).getD [] ++ [now])) }

/-- canSendErrorEmail: deny immediately when no error recipient is
configured (before touching any state); otherwise prune the per-url
error list for the rolling day when the key exists and deny at the
fixed cap of 3 error emails per url per day. -/
def canSendErrorEmail (cfg : Config) (m : MonitorState) (url : String) (now : Int) :
    Bool × MonitorState :=
  if cfg.errorRecipient = "" then (false, m)
  else
    match m.errorEmailsSentPerURLToday url with
    | some urlErrorEmails =>
      let validErrorEmails := pruneWindow (now - 24 * hourNS) urlErrorEmails
      let m1 := { m with
        errorEmailsSentPerURLToday :=
          upd m.errorEmailsSentPerURLToday url (some validErrorEmails) }
      if (3 : Int) ≤ (validErrorEmails.length : Int) then (false, m1) else (true, m1)
    | none => (true, m)

/-- recordErrorEmail: append now to the per-url error email list. -/
def recordErrorEmail (m : MonitorState) (url : String) (now : Int) : MonitorState :=
  { m with
      errorEmailsSentPerURLToday :=
        upd m.errorEmailsSentPerURLToday url
          (some ((m.errorEmailsSentPerURLToday url).getD [] ++ [now])) }

/-- sendEmail (email.go): attempts a Brevo send per configured recipient
(the oracle brevoOk says which external sends succeed), collects the
recipients actually sent to, and returns nil as its error in every case;
per-recipient failures are only logged.  The UI-history recording and
the inter-send sleeps are outside the model. -/
def sendEmail (cfg : Config) (brevoOk : String → Bool) : List String × Option Unit :=
  (cfg.recipients.filter brevoOk, none)

/-- handleConnectionFailure: mark the url unreachable, stamp the down
time on a first failure, and on a first failure attempt an error email
through canSendErrorEmail, recording it unconditionally after the
attempt.  The returned flag says whether an error email was attempted. -/
def handleConnectionFailure (cfg : Config) (m : MonitorState) (url : String) (now : Int) :
    MonitorState × Bool :=
  let wasUnreachable := m.unreachableURLs url
  let m1 := { m with
    unreachableURLs := upd m.unreachableURLs url true,
    lastURLDownTime :=
      if wasUnreachable then m.lastURLDownTime else upd m.lastURLDownTime url (some now) }
  if wasUnreachable then (m1, false)
  else
    match canSendErrorEmail cfg m1 url now with
    | (true, m2) => (recordErrorEmail m2 url now, true)
    | (false, m2) => (m2, false)

/-- handleConnectionRecovery: clear unreachable tracking when the url
was down and attempt a recovery email through canSendErrorEmail,
recording it unconditionally after the attempt. -/
def handleConnectionRecovery (cfg : Config) (m : MonitorState) (url : String) (now : Int) :
    MonitorState × Bool :=
  let wasUnreachable := m.unreachableURLs url
  let m1 :=
    if wasUnreachable then
      { m with
        unreachableURLs := upd m.unreachableURLs url false,
        lastURLDownTime := upd m.lastURLDownTime url none }
    else m
  if wasUnreachable then
    match canSendErrorEmail cfg m1 url now with
    | (true, m2) => (recordErrorEmail m2 url now, true)
    | (false, m2) => (m2, false)
  else (m1, false)

structure URLCheckResult where
  url : String
  date : String
  timeStr : String
  address : String
  found : Bool
  isError : Bool

structure CheckOutcome where
  foundDispatched : Bool
  errorEmailAttempted : Bool
deriving DecidableEq

/-- handleCheckResult: the per-poll state machine of monitor.go.  On an
error, track the connection failure; otherwise handle recovery, update
the found flag, and on a fresh found transition consult the fingerprint
dedup and the gate before dispatching through sendEmail; only a nil
send error records the alert and the match (the out-of-band saveState
calls and event/log records are outside the model). -/
def handleCheckResult (cfg : Config) (brevoOk : String → Bool) (m : MonitorState)
    (r : URLCheckResult) (now : Int) : MonitorState × CheckOutcome :=
  if r.isError then
    let (m2, attempted) := handleConnectionFailure cfg m r.url now
    (m2, { foundDispatched := false, errorEmailAttempted := attempted })
  else
    let (m1, attempted) := handleConnectionRecovery cfg m r.url now
    let wasFound := m1.foundURLs r.url
    let m2 := { m1 with foundURLs := upd m1.foundURLs r.url r.found }
    if r.found then
      let matchHash := GenerateMatchHash r.url r.date r.timeStr r.address
      let maxAge := 7 * 24 * hourNS
      let alreadySeen :=
        match m2.svcState with
        | some st => st.IsMatchSeen matchHash maxAge now
        | none => false
      if wasFound then (m2, { foundDispatched := false, errorEmailAttempted := attempted })
      else
        if alreadySeen then
          (m2, { foundDispatched := false, errorEmailAttempted := attempted })
        else
          match canSendAlert cfg m2 r.url "found" now with
          | (true, m3) =>
            match sendEmail cfg brevoOk with
            | (_sentTo, some _err) =>
              (m3, { foundDispatched := true, errorEmailAttempted := attempted })
            | (_sentTo, none) =>
              let m4 := recordAlert m3 r.url "found" now
              let m5 := { m4 with
                svcState := m4.svcState.map
                  (fun st => st.RecordMatch matchHash r.url r.date r.timeStr r.address now) }
              (m5, { foundDispatched := true, errorEmailAttempted := attempted })
          | (false, m3) =>
            (m3, { foundDispatched := false, errorEmailAttempted := attempted })
    else (m2, { foundDispatched := false, errorEmailAttempted := attempted })

/-! ## Gate decision characterization -/

/-- The pure decision of canSendAlert, as a function of the fields it
reads: cooldown expired (or no prior alert), pruned global list below
the hourly cap, and pruned per-url list below the daily cap (a missing
url entry passes). -/
def gateDecision (cfg : Config) (m : MonitorState) (url alertType : String) (now : Int) :
    Bool :=
  (match m.lastAlertTime { url := url, alertType := alertType } with
   | some lastAlert => decide (cfg.alertCooldownMinutes * minuteNS ≤ now - lastAlert)
   | none => true)
  && decide (((pruneWindow (now - hourNS) m.emailsSentThisHour).length : Int)
       < cfg.emailRateLimitPerHour)
  && (match m.emailsSentPerURLToday url with
      | some l => decide (((pruneWindow (now - 24 * hourNS) l).length : Int)
          < cfg.maxEmailsPerURLPerDay)
      | none => true)

theorem canSendAlert_fst (cfg : Config) (m : MonitorState) (url alertType : String)
    (now : Int) :
    (canSendAlert cfg m url alertType now).1 = gateDecision cfg m url alertType now := by
  unfold canSendAlert gateDecision
  dsimp only
  cases hk : m.lastAlertTime { url := url, alertType := alertType } with
  | some lastAlert =>
    dsimp only
    by_cases hcd : now - lastAlert < cfg.alertCooldownMinutes * minuteNS
    · rw [decide_eq_true hcd,
        decide_eq_false (by omega : ¬ cfg.alertCooldownMinutes * minuteNS ≤ now - lastAlert)]
      try simp
    · rw [decide_eq_false hcd,
        decide_eq_true (by omega : cfg.alertCooldownMinutes * minuteNS ≤ now - lastAlert)]
      simp only [Bool.false_eq_true, if_false, Bool.true_and]
      by_cases hg : cfg.emailRateLimitPerHour ≤
          ((pruneWindow (now - hourNS) m.emailsSentThisHour).length : Int)
      · rw [if_pos hg, decide_eq_false (by omega :
          ¬ ((pruneWindow (now - hourNS) m.emailsSentThisHour).length : Int)
            < cfg.emailRateLimitPerHour)]
        try simp
      · rw [if_neg hg, decide_eq_true (by omega :
          ((pruneWindow (now - hourNS) m.emailsSentThisHour).length : Int)
            < cfg.emailRateLimitPerHour)]
        simp only [Bool.true_and]
        cases hu : m.emailsSentPerURLToday url with
        | some l =>
          dsimp only
          by_cases hd : cfg.maxEmailsPerURLPerDay ≤
              ((pruneWindow (now - 24 * hourNS) l).length : Int)
          · rw [if_pos hd, decide_eq_false (by omega :
              ¬ ((pruneWindow (now - 24 * hourNS) l).length : Int)
                < cfg.maxEmailsPerURLPerDay)]
            try simp
          · rw [if_neg hd, decide_eq_true (by omega :
              ((pruneWindow (now - 24 * hourNS) l).length : Int)
                < cfg.maxEmailsPerURLPerDay)]
            try simp
        | none => rfl
  | none =>
    simp only [Bool.false_eq_true, if_false, Bool.true_and]
    by_cases hg : cfg.emailRateLimitPerHour ≤
        ((pruneWindow (now - hourNS) m.emailsSentThisHour).length : Int)
    · rw [if_pos hg, decide_eq_false (by omega :
        ¬ ((pruneWindow (now - hourNS) m.emailsSentThisHour).length : Int)
          < cfg.emailRateLimitPerHour)]
      try simp
    · rw [if_neg hg, decide_eq_true (by omega :
        ((pruneWindow (now - hourNS) m.emailsSentThisHour).length : Int)
          < cfg.emailRateLimitPerHour)]
      simp only [Bool.true_and]
      cases hu : m.emailsSentPerURLToday url with
      | some l =>
        dsimp only
        by_cases hd : cfg.maxEmailsPerURLPerDay ≤
            ((pruneWindow (now - 24 * hourNS) l).length : Int)
        · rw [if_pos hd, decide_eq_false (by omega :
            ¬ ((pruneWindow (now - 24 * hourNS) l).length : Int)
              < cfg.maxEmailsPerURLPerDay)]
          try simp
        · rw [if_neg hd, decide_eq_true (by omega :
            ((pruneWindow (now - 24 * hourNS) l).length : Int)
              < cfg.maxEmailsPerURLPerDay)]
          try simp
      | none => rfl

theorem canSendAlert_snd_lastAlertTime (cfg : Config) (m : MonitorState)
    (url alertType : String) (now : Int) :
    (canSendAlert cfg m url alertType now).2.lastAlertTime = m.lastAlertTime := by
  unfold canSendAlert
  dsimp only
  cases m.lastAlertTime { url := url, alertType := alertType } <;> dsimp only <;>
    repeat' first | split | rfl

theorem canSendAlert_snd_global (cfg : Config) (m : MonitorState)
    (url alertType : String) (now : Int) :
    (canSendAlert cfg m url alertType now).2.emailsSentThisHour = m.emailsSentThisHour
    ∨ (canSendAlert cfg m url alertType now).2.emailsSentThisHour
        = pruneWindow (now - hourNS) m.emailsSentThisHour := by
  unfold canSendAlert
  dsimp only
  cases m.lastAlertTime { url := url, alertType := alertType } <;> dsimp only <;>
    repeat' first | split | (exact Or.inl rfl) | (exact Or.inr rfl)

theorem canSendAlert_snd_perURL (cfg : Config) (m : MonitorState)
    (url alertType : String) (now : Int) (k : String) :
    (canSendAlert cfg m url alertType now).2.emailsSentPerURLToday k
      = m.emailsSentPerURLToday k
    ∨ (k = url ∧ ∃ l, m.emailsSentPerURLToday url = some l
        ∧ (canSendAlert cfg m url alertType now).2.emailsSentPerURLToday k
            = some (pruneWindow (now - 24 * hourNS) l)) := by
  unfold canSendAlert
  dsimp only
  cases m.lastAlertTime { url := url, alertType := alertType } <;> dsimp only
  case none =>
    split
    · exact Or.inl rfl
    · split
      · exact Or.inl rfl
      · cases hu : m.emailsSentPerURLToday url with
        | some l =>
          dsimp only
          by_cases hku : k = url
          · split <;>
              exact Or.inr ⟨hku, l, rfl, by dsimp only [upd]; rw [if_pos hku]⟩
          · split <;>
              exact Or.inl (by dsimp only [upd]; rw [if_neg hku])
        | none => exact Or.inl rfl
  case some lastAlert =>
    split
    · exact Or.inl rfl
    · split
      · exact Or.inl rfl
      · cases hu : m.emailsSentPerURLToday url with
        | some l =>
          dsimp only
          by_cases hku : k = url
          · split <;>
              exact Or.inr ⟨hku, l, rfl, by dsimp only [upd]; rw [if_pos hku]⟩
          · split <;>
              exact Or.inl (by dsimp only [upd]; rw [if_neg hku])
        | none => exact Or.inl rfl

theorem pruneWindow_compose (c1 c2 : Int) (h : c1 ≤ c2) (l : List Int) :
    pruneWindow c2 (pruneWindow c1 l) = pruneWindow c2 l := by
  unfold pruneWindow
  rw [List.filter_filter]
  apply List.filter_congr
  intro t _
  by_cases h2 : c2 < t
  · rw [decide_eq_true h2, decide_eq_true (by omega : c1 < t)]
    rfl
  · rw [decide_eq_false h2]
    simp

/-- Claim C8: canSendAlert is an idempotent query: at a fixed time its
decision is stable under repetition, and running it (which rewrites the
pruned timestamp lists in place) never changes the decision of any
subsequent canSendAlert call at the same or a later time, for any url
and alert type. -/
theorem c8_can_send_alert_pure_query (cfg : Config) (m : MonitorState)
    (u1 a1 u2 a2 : String) (now now2 : Int) (h : now ≤ now2) :
    (canSendAlert cfg (canSendAlert cfg m u1 a1 now).2 u2 a2 now2).1
      = (canSendAlert cfg m u2 a2 now2).1 := by
  rw [canSendAlert_fst, canSendAlert_fst]
  unfold gateDecision
  rw [canSendAlert_snd_lastAlertTime]
  have hga : pruneWindow (now2 - hourNS) (canSendAlert cfg m u1 a1 now).2.emailsSentThisHour
      = pruneWindow (now2 - hourNS) m.emailsSentThisHour := by
    rcases canSendAlert_snd_global cfg m u1 a1 now with hg | hg
    · rw [hg]
    · rw [hg, pruneWindow_compose (now - hourNS) (now2 - hourNS) (by omega)]
  rw [hga]
  have hpu : (match (canSendAlert cfg m u1 a1 now).2.emailsSentPerURLToday u2 with
      | some l => decide (((pruneWindow (now2 - 24 * hourNS) l).length : Int)
          < cfg.maxEmailsPerURLPerDay)
      | none => true)
      = (match m.emailsSentPerURLToday u2 with
      | some l => decide (((pruneWindow (now2 - 24 * hourNS) l).length : Int)
          < cfg.maxEmailsPerURLPerDay)
      | none => true) := by
    rcases canSendAlert_snd_perURL cfg m u1 a1 now u2 with hp | ⟨hk, l, hl, hp⟩
    · rw [hp]
    · subst hk
      rw [hp, hl]
      dsimp only
      rw [pruneWindow_compose (now - 24 * hourNS) (now2 - 24 * hourNS) (by omega)]
  rw [hpu]

/-- Concrete instance of claim C8: a state with one prunable global
timestamp, queried twice. -/
theorem c8_can_send_alert_pure_query_witness :
    (0 : Int) ≤ 3 * hourNS ∧
    (canSendAlert
        { checkIntervalSeconds := 60, alertCooldownMinutes := 10,
          emailRateLimitPerHour := 2, maxEmailsPerURLPerDay := 1,
          recipients := ["a@example.com"], errorRecipient := "" }
        (canSendAlert
          { checkIntervalSeconds := 60, alertCooldownMinutes := 10,
            emailRateLimitPerHour := 2, maxEmailsPerURLPerDay := 1,
            recipients := ["a@example.com"], errorRecipient := "" }
          { lastAlertTime := fun _ => none, emailsSentThisHour := [1],
            emailsSentPerURLToday := fun _ => none,
            errorEmailsSentPerURLToday := fun _ => none,
            foundURLs := fun _ => false, unreachableURLs := fun _ => false,
            lastURLDownTime := fun _ => none, svcState := none }
          "https://a.example" "found" 0).2
        "https://a.example" "found" (3 * hourNS)).1
      = (canSendAlert
        { checkIntervalSeconds := 60, alertCooldownMinutes := 10,
          emailRateLimitPerHour := 2, maxEmailsPerURLPerDay := 1,
          recipients := ["a@example.com"], errorRecipient := "" }
        { lastAlertTime := fun _ => none, emailsSentThisHour := [1],
          emailsSentPerURLToday := fun _ => none,
          errorEmailsSentPerURLToday := fun _ => none,
          foundURLs := fun _ => false, unreachableURLs := fun _ => false,
          lastURLDownTime := fun _ => none, svcState := none }
        "https://a.example" "found" (3 * hourNS)).1 :=
  ⟨by norm_num [hourNS, nsPerSecond],
   c8_can_send_alert_pure_query _ _ _ _ _ _ 0 (3 * hourNS)
     (by norm_num [hourNS, nsPerSecond])⟩

/-- Iterated recordAlert, for the rate-limit scenario of the spec. -/
def recordAlertMany (m : MonitorState) (calls : List (String × String × Int)) :
    MonitorState :=
  calls.foldl (fun acc c => recordAlert acc c.1 c.2.1 c.2.2) m

theorem recordAlertMany_global (m : MonitorState) (calls : List (String × String × Int)) :
    (recordAlertMany m calls).emailsSentThisHour
      = m.emailsSentThisHour ++ calls.map (fun c => c.2.2) := by
  induction calls generalizing m with
  | nil => simp [recordAlertMany]
  | cons c cs ih =>
    show (recordAlertMany (recordAlert m c.1 c.2.1 c.2.2) cs).emailsSentThisHour = _
    rw [ih]
    simp [recordAlert]

/-- Claim C2: the canSendAlert decision is exactly: no active cooldown
for the (url, alertType) key, then pruned global hourly list under the
hourly cap, then pruned per-url daily list under the daily cap (stated
for the positive caps that ValidateConfig enforces); recording the
hourly cap many alerts within one rolling hour makes the next
canSendAlert deny, capacity reappears once enough of those timestamps
leave the rolling hour, and recordAlert unconditionally appends to the
global and per-url lists and stamps the last-alert time. -/
theorem c2_gate_decision_and_rate_limit :
    (∀ (cfg : Config) (m : MonitorState) (url alertType : String) (now : Int),
        1 ≤ cfg.maxEmailsPerURLPerDay →
        ((canSendAlert cfg m url alertType now).1 = true ↔
          (¬ ∃ lastAlert,
              m.lastAlertTime { url := url, alertType := alertType } = some lastAlert
              ∧ now - lastAlert < cfg.alertCooldownMinutes * minuteNS)
          ∧ ((pruneWindow (now - hourNS) m.emailsSentThisHour).length : Int)
              < cfg.emailRateLimitPerHour
          ∧ ((pruneWindow (now - 24 * hourNS)
                ((m.emailsSentPerURLToday url).getD [])).length : Int)
              < cfg.maxEmailsPerURLPerDay))
    ∧ (∀ (cfg : Config) (m : MonitorState) (calls : List (String × String × Int))
          (url alertType : String) (now : Int),
        m.emailsSentThisHour = [] →
        cfg.emailRateLimitPerHour ≤ (calls.length : Int) →
        (∀ c ∈ calls, now - hourNS < c.2.2) →
        (canSendAlert cfg (recordAlertMany m calls) url alertType now).1 = false)
    ∧ (∀ (cfg : Config) (m : MonitorState) (calls : List (String × String × Int))
          (url alertType : String) (now2 : Int),
        m.emailsSentThisHour = [] →
        1 ≤ cfg.maxEmailsPerURLPerDay →
        (((calls.map (fun c => c.2.2)).filter
            (fun t => decide (now2 - hourNS < t))).length : Int)
            < cfg.emailRateLimitPerHour →
        (recordAlertMany m calls).lastAlertTime { url := url, alertType := alertType }
            = none →
        (recordAlertMany m calls).emailsSentPerURLToday url = none →
        (canSendAlert cfg (recordAlertMany m calls) url alertType now2).1 = true)
    ∧ (∀ (m : MonitorState) (url alertType : String) (now : Int),
        (recordAlert m url alertType now).lastAlertTime
            { url := url, alertType := alertType } = some now
        ∧ (recordAlert m url alertType now).emailsSentThisHour
            = m.emailsSentThisHour ++ [now]
        ∧ (recordAlert m url alertType now).emailsSentPerURLToday url
            = some ((m.emailsSentPerURLToday url).getD [] ++ [now])) := by
  refine ⟨?_, ?_, ?_, ?_⟩
  · intro cfg m url alertType now hD
    rw [canSendAlert_fst]
    unfold gateDecision
    cases hk : m.lastAlertTime { url := url, alertType := alertType } with
    | some lastAlert =>
      dsimp only
      cases hu : m.emailsSentPerURLToday url with
      | some l =>
        dsimp only [Option.getD]
        simp only [Bool.and_eq_true, decide_eq_true_eq]
        constructor
        · rintro ⟨⟨h1, h2⟩, h3⟩
          refine ⟨?_, h2, h3⟩
          rintro ⟨la, hla, hlt⟩
          injection hla with hla
          omega
        · rintro ⟨h1, h2, h3⟩
          refine ⟨⟨?_, h2⟩, h3⟩
          by_contra hlt
          exact h1 ⟨lastAlert, rfl, by omega⟩
      | none =>
        dsimp only [Option.getD]
        simp only [Bool.and_eq_true, decide_eq_true_eq, and_true]
        constructor
        · rintro ⟨h1, h2⟩
          refine ⟨?_, h2, ?_⟩
          · rintro ⟨la, hla, hlt⟩
            injection hla with hla
            omega
          · show ((pruneWindow (now - 24 * hourNS) []).length : Int) < _
            simpa using hD
        · rintro ⟨h1, h2, _h3⟩
          refine ⟨?_, h2⟩
          by_contra hlt
          exact h1 ⟨lastAlert, rfl, by omega⟩
    | none =>
      dsimp only
      cases hu : m.emailsSentPerURLToday url with
      | some l =>
        dsimp only [Option.getD]
        simp only [Bool.true_and, Bool.and_eq_true, decide_eq_true_eq]
        constructor
        · rintro ⟨h2, h3⟩
          refine ⟨?_, h2, h3⟩
          rintro ⟨la, hla, _⟩
          exact Option.noConfusion hla
        · rintro ⟨_, h2, h3⟩
          exact ⟨h2, h3⟩
      | none =>
        dsimp only [Option.getD]
        simp only [Bool.true_and, Bool.and_true, decide_eq_true_eq]
        constructor
        · intro h2
          refine ⟨?_, h2, ?_⟩
          · rintro ⟨la, hla, _⟩
            exact Option.noConfusion hla
          · show ((pruneWindow (now - 24 * hourNS) []).length : Int) < _
            simpa using hD
        · rintro ⟨_, h2, _⟩
          exact h2
  · intro cfg m calls url alertType now hempty hH hin
    rw [canSendAlert_fst]
    unfold gateDecision
    have hglob : pruneWindow (now - hourNS) (recordAlertMany m calls).emailsSentThisHour
        = calls.map (fun c => c.2.2) := by
      rw [recordAlertMany_global, hempty, List.nil_append]
      unfold pruneWindow
      apply List.filter_eq_self.mpr
      intro t ht
      obtain ⟨c, hc, hct⟩ := List.mem_map.mp ht
      exact decide_eq_true (hct ▸ hin c hc)
    rw [hglob]
    have hlen : decide (((calls.map (fun c => c.2.2)).length : Int)
        < cfg.emailRateLimitPerHour) = false := by
      apply decide_eq_false
      rw [List.length_map]
      omega
    rw [hlen]
    simp
  · intro cfg m calls url alertType now2 hempty hD hroom hkey hurl
    rw [canSendAlert_fst]
    unfold gateDecision
    rw [hkey, hurl]
    have hglob : pruneWindow (now2 - hourNS) (recordAlertMany m calls).emailsSentThisHour
        = (calls.map (fun c => c.2.2)).filter (fun t => decide (now2 - hourNS < t)) := by
      rw [recordAlertMany_global, hempty, List.nil_append]
      rfl
    rw [hglob]
    rw [decide_eq_true hroom]
    rfl
  · intro m url alertType now
    refine ⟨?_, rfl, ?_⟩
    · show upd m.lastAlertTime { url := url, alertType := alertType } (some now)
        { url := url, alertType := alertType } = some now
      rw [upd, if_pos rfl]
    · show upd m.emailsSentPerURLToday url
        (some ((m.emailsSentPerURLToday url).getD [] ++ [now])) url = _
      rw [upd, if_pos rfl]

def cfgW : Config :=
  { checkIntervalSeconds := 60, alertCooldownMinutes := 10,
    emailRateLimitPerHour := 1, maxEmailsPerURLPerDay := 1,
    recipients := ["a@example.com"], errorRecipient := "e@example.com" }

def mEmpty : MonitorState :=
  { lastAlertTime := fun _ => none, emailsSentThisHour := [],
    emailsSentPerURLToday := fun _ => none,
    errorEmailsSentPerURLToday := fun _ => none,
    foundURLs := fun _ => false, unreachableURLs := fun _ => false,
    lastURLDownTime := fun _ => none, svcState := none }

def callsW : List (String × String × Int) := [("u2", "found", hourNS)]

/-- Concrete instance of claim C2: with hourly cap 1, one recorded alert
inside the rolling hour blocks the gate; two hours later it no longer
does; an empty state passes the gate; recordAlert appends the timestamp. -/
theorem c2_gate_decision_and_rate_limit_witness :
    (1 : Int) ≤ cfgW.maxEmailsPerURLPerDay
    ∧ (canSendAlert cfgW mEmpty ("u") ("found") 0).1 = true
    ∧ (canSendAlert cfgW (recordAlertMany mEmpty callsW) ("v") ("found") hourNS).1 = false
    ∧ (canSendAlert cfgW (recordAlertMany mEmpty callsW) ("v") ("found") (3 * hourNS)).1 = true
    ∧ (recordAlert mEmpty ("u") ("found") 5).emailsSentThisHour = [5] := by
  refine ⟨by norm_num [cfgW], ?_, ?_, ?_, ?_⟩
  · exact (c2_gate_decision_and_rate_limit.1 cfgW mEmpty "u" "found" 0
        (by norm_num [cfgW])).mpr
      ⟨by rintro ⟨la, hla, _⟩; simp [mEmpty] at hla, by decide, by decide⟩
  · exact c2_gate_decision_and_rate_limit.2.1 cfgW mEmpty callsW "v" "found" hourNS
      rfl (by decide) (by decide)
  · exact c2_gate_decision_and_rate_limit.2.2.1 cfgW mEmpty callsW "v" "found" (3 * hourNS)
      rfl (by norm_num [cfgW]) (by decide) (by decide) (by decide)
  · have h := (c2_gate_decision_and_rate_limit.2.2.2 mEmpty "u" "found" 5).2.1
    simpa [mEmpty] using h

theorem canSendErrorEmail_snd_preserves (cfg : Config) (m : MonitorState) (url : String)
    (now : Int) :
    (canSendErrorEmail cfg m url now).2.lastAlertTime = m.lastAlertTime
    ∧ (canSendErrorEmail cfg m url now).2.emailsSentThisHour = m.emailsSentThisHour
    ∧ (canSendErrorEmail cfg m url now).2.emailsSentPerURLToday = m.emailsSentPerURLToday
    ∧ (canSendErrorEmail cfg m url now).2.foundURLs = m.foundURLs
    ∧ (canSendErrorEmail cfg m url now).2.unreachableURLs = m.unreachableURLs
    ∧ (canSendErrorEmail cfg m url now).2.lastURLDownTime = m.lastURLDownTime
    ∧ (canSendErrorEmail cfg m url now).2.svcState = m.svcState := by
  unfold canSendErrorEmail
  dsimp only
  split
  · exact ⟨rfl, rfl, rfl, rfl, rfl, rfl, rfl⟩
  · cases m.errorEmailsSentPerURLToday url <;> dsimp only <;>
      repeat' first | split | exact ⟨rfl, rfl, rfl, rfl, rfl, rfl, rfl⟩

theorem handleConnectionRecovery_preserves (cfg : Config) (m : MonitorState) (url : String)
    (now : Int) :
    (handleConnectionRecovery cfg m url now).1.foundURLs = m.foundURLs
    ∧ (handleConnectionRecovery cfg m url now).1.lastAlertTime = m.lastAlertTime
    ∧ (handleConnectionRecovery cfg m url now).1.emailsSentThisHour = m.emailsSentThisHour
    ∧ (handleConnectionRecovery cfg m url now).1.emailsSentPerURLToday
        = m.emailsSentPerURLToday
    ∧ (handleConnectionRecovery cfg m url now).1.svcState = m.svcState := by
  unfold handleConnectionRecovery
  dsimp only
  cases hw : m.unreachableURLs url with
  | false =>
    simp [hw]
  | true =>
    simp only [hw, if_true]
    have pres := canSendErrorEmail_snd_preserves cfg
      { m with unreachableURLs := upd m.unreachableURLs url false,
               lastURLDownTime := upd m.lastURLDownTime url none } url now
    cases hc : canSendErrorEmail cfg
        { m with unreachableURLs := upd m.unreachableURLs url false,
                 lastURLDownTime := upd m.lastURLDownTime url none } url now with
    | mk b m2 =>
      rw [hc] at pres
      obtain ⟨p1, p2, p3, p4, _p5, _p6, p7⟩ := pres
      cases b <;> dsimp only <;> exact ⟨p4, p1, p2, p3, p7⟩

theorem gateDecision_congr (cfg : Config) (m m2 : MonitorState) (url alertType : String)
    (now : Int)
    (h1 : m2.lastAlertTime = m.lastAlertTime)
    (h2 : m2.emailsSentThisHour = m.emailsSentThisHour)
    (h3 : m2.emailsSentPerURLToday = m.emailsSentPerURLToday) :
    gateDecision cfg m2 url alertType now = gateDecision cfg m url alertType now := by
  unfold gateDecision
  rw [h1, h2, h3]

/-- Claim C1: on a reachable poll with the terms found, a fresh
found-transition dispatches a found notification exactly when the
fingerprint dedup passes (the url/date/time/address fingerprint is not
seen within the last 7 days) and canSendAlert allows a found alert; and
when the previous found-state was already true, no found notification is
dispatched regardless of the dedup and gate results. -/
theorem c1_found_transition_gate (cfg : Config) (brevoOk : String → Bool)
    (m : MonitorState) (r : URLCheckResult) (now : Int)
    (hok : r.isError = false) (hfound : r.found = true) :
    (m.foundURLs r.url = false →
        ((handleCheckResult cfg brevoOk m r now).2.foundDispatched = true ↔
          ((match m.svcState with
            | some st => st.IsMatchSeen (GenerateMatchHash r.url r.date r.timeStr r.address)
                (7 * 24 * hourNS) now
            | none => false) = false
          ∧ (canSendAlert cfg m r.url ("found") now).1 = true)))
    ∧ (m.foundURLs r.url = true →
        (handleCheckResult cfg brevoOk m r now).2.foundDispatched = false) := by
  unfold handleCheckResult
  rw [hok, hfound]
  simp only [Bool.false_eq_true, if_false, if_true]
  cases hrec : handleConnectionRecovery cfg m r.url now with
  | mk m1 att =>
    have pres := handleConnectionRecovery_preserves cfg m r.url now
    rw [hrec] at pres
    obtain ⟨pf, pla, pgl, ppu, pst⟩ := pres
    dsimp only at pf pla pgl ppu pst ⊢
    have hwf : m1.foundURLs r.url = m.foundURLs r.url := congrFun pf r.url
    rw [hwf, ← pst]
    have hgeq : (canSendAlert cfg { m1 with foundURLs := upd m1.foundURLs r.url true }
        r.url ("found") now).1 = (canSendAlert cfg m r.url ("found") now).1 := by
      rw [canSendAlert_fst, canSendAlert_fst]
      exact gateDecision_congr cfg m _ r.url ("found") now pla pgl ppu
    constructor
    · intro hnew
      rw [hnew]
      simp only [Bool.false_eq_true, if_false]
      cases hseen : (match m1.svcState with
          | some st => st.IsMatchSeen (GenerateMatchHash r.url r.date r.timeStr r.address)
              (7 * 24 * hourNS) now
          | none => false) with
      | true =>
        simp only [if_true]
        simp
      | false =>
        simp only [Bool.false_eq_true, if_false]
        cases hgate : canSendAlert cfg { m1 with foundURLs := upd m1.foundURLs r.url true }
            r.url ("found") now with
        | mk b m3 =>
          rw [hgate] at hgeq
          dsimp only at hgeq
          rw [← hgeq]
          cases b with
          | true =>
            cases hsend : sendEmail cfg brevoOk with
            | mk sentTo e =>
              cases e <;> simp
          | false =>
            dsimp only
            simp
    · intro hwas
      rw [hwas]
      simp only [if_true]

def rW : URLCheckResult :=
  { url := "https://x.example", date := "1.1.2026.", timeStr := "08:00-16:00",
    address := "adresa 1", found := true, isError := false }

/-- Concrete instance of claim C1: a fresh found transition on an empty
state with an unseen fingerprint and an open gate dispatches. -/
theorem c1_found_transition_gate_witness :
    rW.isError = false ∧ rW.found = true ∧ mEmpty.foundURLs rW.url = false
    ∧ (handleCheckResult cfgW (fun _ => true) mEmpty rW 0).2.foundDispatched = true := by
  refine ⟨rfl, rfl, rfl, ?_⟩
  apply ((c1_found_transition_gate cfgW (fun _ => true) mEmpty rW 0 rfl rfl).1 rfl).mpr
  exact ⟨rfl, by decide⟩

/-- Claim C10: with an empty configured error recipient,
canSendErrorEmail returns false for every url and every state (leaving
the state untouched), so the first-failure and recovery transitions
attempt no error or recovery notification and change nothing but the
in-memory unreachable and down-since tracking. -/
theorem c10_empty_error_recipient (cfg : Config) (m : MonitorState) (url : String)
    (now : Int) (h : cfg.errorRecipient = "") :
    canSendErrorEmail cfg m url now = (false, m)
    ∧ ((handleConnectionFailure cfg m url now).2 = false
      ∧ (handleConnectionFailure cfg m url now).1.lastAlertTime = m.lastAlertTime
      ∧ (handleConnectionFailure cfg m url now).1.emailsSentThisHour = m.emailsSentThisHour
      ∧ (handleConnectionFailure cfg m url now).1.emailsSentPerURLToday
          = m.emailsSentPerURLToday
      ∧ (handleConnectionFailure cfg m url now).1.errorEmailsSentPerURLToday
          = m.errorEmailsSentPerURLToday
      ∧ (handleConnectionFailure cfg m url now).1.foundURLs = m.foundURLs
      ∧ (handleConnectionFailure cfg m url now).1.svcState = m.svcState
      ∧ (handleConnectionFailure cfg m url now).1.unreachableURLs
          = upd m.unreachableURLs url true
      ∧ (handleConnectionFailure cfg m url now).1.lastURLDownTime
          = (if m.unreachableURLs url = true then m.lastURLDownTime
             else upd m.lastURLDownTime url (some now)))
    ∧ ((handleConnectionRecovery cfg m url now).2 = false
      ∧ (handleConnectionRecovery cfg m url now).1.lastAlertTime = m.lastAlertTime
      ∧ (handleConnectionRecovery cfg m url now).1.emailsSentThisHour = m.emailsSentThisHour
      ∧ (handleConnectionRecovery cfg m url now).1.emailsSentPerURLToday
          = m.emailsSentPerURLToday
      ∧ (handleConnectionRecovery cfg m url now).1.errorEmailsSentPerURLToday
          = m.errorEmailsSentPerURLToday
      ∧ (handleConnectionRecovery cfg m url now).1.foundURLs = m.foundURLs
      ∧ (handleConnectionRecovery cfg m url now).1.svcState = m.svcState
      ∧ (handleConnectionRecovery cfg m url now).1.unreachableURLs
          = (if m.unreachableURLs url = true then upd m.unreachableURLs url false
             else m.unreachableURLs)
      ∧ (handleConnectionRecovery cfg m url now).1.lastURLDownTime
          = (if m.unreachableURLs url = true then upd m.lastURLDownTime url none
             else m.lastURLDownTime)) := by
  have hcse : ∀ mm : MonitorState, canSendErrorEmail cfg mm url now = (false, mm) := by
    intro mm
    unfold canSendErrorEmail
    rw [if_pos h]
  refine ⟨hcse m, ?_, ?_⟩
  · unfold handleConnectionFailure
    dsimp only
    cases hw : m.unreachableURLs url with
    | true => simp [hw]
    | false => simp [hw, hcse]
  · unfold handleConnectionRecovery
    dsimp only
    cases hw : m.unreachableURLs url with
    | true => simp [hw, hcse]
    | false => simp [hw]

/-- Concrete instance of claim C10: empty error recipient on an empty
state denies the error email and attempts nothing. -/
theorem c10_empty_error_recipient_witness :
    ({ cfgW with errorRecipient := "" } : Config).errorRecipient = ""
    ∧ canSendErrorEmail { cfgW with errorRecipient := "" } mEmpty ("u") 0 = (false, mEmpty)
    ∧ (handleConnectionFailure { cfgW with errorRecipient := "" } mEmpty ("u") 0).2 = false :=
  ⟨rfl,
   (c10_empty_error_recipient { cfgW with errorRecipient := "" } mEmpty "u" 0 rfl).1,
   (c10_empty_error_recipient { cfgW with errorRecipient := "" } mEmpty "u" 0 rfl).2.1.1⟩

/-- Claim C4 (code bug): sendEmail returns a nil error unconditionally,
even when the external Brevo send fails for every recipient, so the
found-alert path records the alert timestamps, the last-alert time and
the seen-match record anyway: on a fresh found transition with a single
recipient whose send fails, the resulting state has a new global
timestamp, a new last-alert entry and a new match record, contradicting
the no-state-mutation-on-failure contract. -/
theorem c4_send_failure_still_records :
    (∀ (cfg : Config) (brevoOk : String → Bool), (sendEmail cfg brevoOk).2 = none)
    ∧ (sendEmail cfgW (fun _ => false)).1 = []
    ∧ (handleCheckResult cfgW (fun _ => false)
        { mEmpty with svcState := some (NewServiceState 0) } rW 0).2.foundDispatched = true
    ∧ (handleCheckResult cfgW (fun _ => false)
        { mEmpty with svcState := some (NewServiceState 0) } rW 0).1.emailsSentThisHour
        = [0]
    ∧ (handleCheckResult cfgW (fun _ => false)
        { mEmpty with svcState := some (NewServiceState 0) } rW 0).1.lastAlertTime
        { url := rW.url, alertType := "found" } = some 0
    ∧ ((handleCheckResult cfgW (fun _ => false)
        { mEmpty with svcState := some (NewServiceState 0) } rW 0).1.svcState.getD
          (NewServiceState 0)).seenMatches
        (GenerateMatchHash rW.url rW.date rW.timeStr rW.address) ≠ none := by
  refine ⟨fun cfg brevoOk => rfl, rfl, ?_, ?_, ?_, ?_⟩ <;> decide

/-! ## Circular buffer (utils.go)

The Go slice of interface values (initially nil in every slot) becomes
a list of Option values, nil slots being none. -/

structure CircularBuffer (α : Type) where
  items : List (Option α)
  head : Nat
  tail : Nat
  count : Nat
  capacity : Nat

def NewCircularBuffer (α : Type) (capacity : Nat) : CircularBuffer α :=
  { items := List.replicate capacity none, head := 0, tail := 0, count := 0,
    capacity := capacity }

/-- CircularBuffer.Add: write at tail while filling; once full, write at
head (the oldest slot) and advance both cursors. -/
def CircularBuffer.Add {α : Type} (cb : CircularBuffer α) (item : α) : CircularBuffer α :=
  if cb.count < cb.capacity then
    { cb with items := cb.items.set cb.tail (some item),
              tail := (cb.tail + 1) % cb.capacity,
              count := cb.count + 1 }
  else
    { cb with items := cb.items.set cb.head (some item),
              head := (cb.head + 1) % cb.capacity,
              tail := (cb.tail + 1) % cb.capacity }

/-- CircularBuffer.GetAll: while not full read slots 0..count-1, when
full read capacity slots starting at head. -/
def CircularBuffer.GetAll {α : Type} (cb : CircularBuffer α) : List (Option α) :=
  if cb.count = 0 then []
  else if cb.count < cb.capacity then
    (List.range cb.count).map (fun i => cb.items.getD i none)
  else
    (List.range cb.capacity).map (fun i => cb.items.getD ((cb.head + i) % cb.capacity) none)

/-- Abstract model of one insert into a capacity-C recency window. -/
def mAdd (C : Nat) {α : Type} (l : List α) (x : α) : List α :=
  if l.length < C then l ++ [x] else l.drop 1 ++ [x]

/-- The last min(length, C) elements of a list, oldest first. -/
def lastN (C : Nat) {α : Type} (ys : List α) : List α :=
  ys.drop (ys.length - min ys.length C)

/-- Simulation relation between the buffer and its abstract window. -/
def cbInv {α : Type} (C : Nat) (cb : CircularBuffer α) (l : List α) : Prop :=
  cb.capacity = C ∧ cb.items.length = C ∧ cb.count = l.length ∧ l.length ≤ C ∧
  cb.head < C ∧ cb.tail = (cb.head + l.length) % C ∧ (l.length < C → cb.head = 0) ∧
  ∀ j, j < l.length → cb.items.getD ((cb.head + j) % C) none = l[j]?

theorem cbInv_new {α : Type} (C : Nat) (hC : 0 < C) :
    cbInv C (NewCircularBuffer α C) [] := by
  refine ⟨rfl, by simp [NewCircularBuffer], rfl, by simp, hC,
    by simp [NewCircularBuffer], fun _ => rfl, ?_⟩
  intro j hj
  exact absurd hj (by simp)

theorem addModNeSelf (head k C : Nat) (hh : head < C) (hk1 : 0 < k) (hk2 : k < C) :
    (head + k) % C ≠ head := by
  rcases Nat.lt_or_ge (head + k) C with h | h
  · rw [Nat.mod_eq_of_lt h]
    omega
  · rw [Nat.mod_eq_sub_mod h, Nat.mod_eq_of_lt (by omega : head + k - C < C)]
    omega


theorem cbInv_add {α : Type} (C : Nat) (hC : 0 < C) (cb : CircularBuffer α) (l : List α)
    (x : α) (hinv : cbInv C cb l) : cbInv C (cb.Add x) (mAdd C l x) := by
  obtain ⟨hcap, hlen, hcount, hle, hhead, htail, hh0, hslots⟩ := hinv
  unfold CircularBuffer.Add mAdd
  rw [hcap, hcount]
  by_cases hfull : l.length < C
  · rw [if_pos hfull, if_pos hfull]
    have hhead0 : cb.head = 0 := hh0 hfull
    have htl : cb.tail = l.length := by
      rw [htail, hhead0, Nat.zero_add, Nat.mod_eq_of_lt hfull]
    refine ⟨rfl, ?_, ?_, ?_, ?_, ?_, ?_, ?_⟩
    · dsimp only
      rw [List.length_set]
      exact hlen
    · dsimp only
      rw [List.length_append, List.length_singleton]
    · rw [List.length_append, List.length_singleton]
      omega
    · dsimp only
      exact hhead
    · dsimp only
      rw [htl, hhead0, List.length_append, List.length_singleton, Nat.zero_add]
    · intro _
      exact hhead0
    · intro j hj
      dsimp only
      simp only [hhead0, Nat.zero_add] at hslots ⊢
      rw [List.length_append, List.length_singleton] at hj
      rw [Nat.mod_eq_of_lt (show j < C by omega)]
      rw [htl]
      rcases Nat.lt_or_ge j l.length with hjl | hjl
      · rw [List.getD_eq_getElem?_getD,
          List.getElem?_set_ne (show l.length ≠ j by omega),
          ← List.getD_eq_getElem?_getD,
          List.getElem?_append_left hjl]
        have h2 := hslots j hjl
        rw [Nat.mod_eq_of_lt (show j < C by omega)] at h2
        exact h2
      · have hjeq : j = l.length := by omega
        subst hjeq
        rw [List.getD_eq_getElem?_getD,
          List.getElem?_set_eq_of_lt (some x) (show l.length < cb.items.length by omega),
          List.getElem?_concat_length]
        rfl
  · rw [if_neg hfull, if_neg hfull]
    have hlC : l.length = C := by omega
    have hdroplen : (l.drop 1).length = C - 1 := by
      rw [List.length_drop, hlC]
    have htl : cb.tail = cb.head := by
      rw [htail, hlC, Nat.add_mod_right, Nat.mod_eq_of_lt hhead]
    refine ⟨rfl, ?_, ?_, ?_, ?_, ?_, ?_, ?_⟩
    · dsimp only
      rw [List.length_set]
      exact hlen
    · dsimp only
      rw [List.length_append, List.length_singleton, hdroplen]
      omega
    · rw [List.length_append, List.length_singleton, hdroplen]
      omega
    · dsimp only
      exact Nat.mod_lt _ hC
    · dsimp only
      rw [htl, List.length_append, List.length_singleton, hdroplen]
      rw [show C - 1 + 1 = C by omega, Nat.add_mod_right,
        Nat.mod_eq_of_lt (Nat.mod_lt _ hC)]
    · intro h
      rw [List.length_append, List.length_singleton, hdroplen] at h
      exact absurd h (by omega)
    · intro j hj
      dsimp only
      rw [List.length_append, List.length_singleton, hdroplen] at hj
      rw [Nat.mod_add_mod]
      rcases Nat.lt_or_ge j (C - 1) with hjl | hjl
      · rw [show cb.head + 1 + j = cb.head + (1 + j) by omega]
        have hne := addModNeSelf cb.head (1 + j) C hhead (by omega) (by omega)
        rw [List.getD_eq_getElem?_getD, List.getElem?_set_ne (Ne.symm hne),
          ← List.getD_eq_getElem?_getD]
        have h2 := hslots (j + 1) (by omega)
        rw [show cb.head + (1 + j) = cb.head + (j + 1) by omega, h2]
        rw [List.getElem?_append_left (by omega : j < (List.drop 1 l).length),
          List.getElem?_drop]
        rw [show 1 + j = j + 1 by omega]
      · have hjeq : j = C - 1 := by omega
        subst hjeq
        rw [show cb.head + 1 + (C - 1) = cb.head + C by omega, Nat.add_mod_right,
          Nat.mod_eq_of_lt hhead]
        rw [List.getD_eq_getElem?_getD,
          List.getElem?_set_eq_of_lt (some x) (by omega : cb.head < cb.items.length)]
        rw [show C - 1 = (List.drop 1 l).length by omega,
          List.getElem?_concat_length]
        rfl

theorem rangeMapGet {α : Type} (l : List α) (f : Nat → Option α)
    (h : ∀ j, j < l.length → f j = l[j]?) :
    (List.range l.length).map f = l.map some := by
  induction l generalizing f with
  | nil => simp
  | cons a tl ih =>
    rw [List.length_cons, List.range_succ_eq_map, List.map_cons, List.map_map,
      List.map_cons]
    congr 1
    · have h0 := h 0 (by simp)
      simpa using h0
    · apply ih
      intro j hj
      have hs := h (j + 1) (by simpa using Nat.succ_lt_succ hj)
      simpa using hs

theorem cbGetAll_eq {α : Type} (C : Nat) (_hC : 0 < C) (cb : CircularBuffer α) (l : List α)
    (hinv : cbInv C cb l) : cb.GetAll = l.map some := by
  obtain ⟨hcap, hlen, hcount, hle, hhead, htail, hh0, hslots⟩ := hinv
  unfold CircularBuffer.GetAll
  rw [hcap, hcount]
  by_cases h0 : l.length = 0
  · rw [if_pos h0]
    rw [List.length_eq_zero.mp h0]
    rfl
  · rw [if_neg h0]
    by_cases hfull : l.length < C
    · rw [if_pos hfull]
      have hhead0 : cb.head = 0 := hh0 hfull
      apply rangeMapGet
      intro j hj
      have h2 := hslots j hj
      rw [hhead0, Nat.zero_add, Nat.mod_eq_of_lt (by omega : j < C)] at h2
      exact h2
    · rw [if_neg hfull]
      have hlC : l.length = C := by omega
      have hrange : List.range C = List.range l.length := by rw [hlC]
      rw [hrange]
      apply rangeMapGet
      intro j hj
      exact hslots j hj

theorem lastN_len (C : Nat) {α : Type} (ys : List α) :
    (lastN C ys).length = min ys.length C := by
  unfold lastN
  rw [List.length_drop]
  omega

theorem mAdd_lastN (C : Nat) (hC : 0 < C) {α : Type} (ys : List α) (x : α) :
    mAdd C (lastN C ys) x = lastN C (ys ++ [x]) := by
  unfold mAdd
  rw [lastN_len]
  by_cases h : ys.length < C
  · rw [if_pos (by omega : min ys.length C < C)]
    unfold lastN
    rw [List.length_append, List.length_singleton]
    rw [show ys.length - min ys.length C = 0 by omega,
      show ys.length + 1 - min (ys.length + 1) C = 0 by omega,
      List.drop_zero, List.drop_zero]
  · rw [if_neg (by omega : ¬ min ys.length C < C)]
    unfold lastN
    rw [List.length_append, List.length_singleton, List.drop_drop]
    rw [show ys.length - min ys.length C + 1 = ys.length + 1 - min (ys.length + 1) C
      by omega]
    rw [List.drop_append_of_le_length
      (by omega : ys.length + 1 - min (ys.length + 1) C ≤ ys.length)]

theorem foldl_mAdd_lastN (C : Nat) (hC : 0 < C) {α : Type} (xs : List α) :
    ∀ ys : List α, xs.foldl (mAdd C) (lastN C ys) = lastN C (ys ++ xs) := by
  induction xs with
  | nil => intro ys; simp
  | cons x xs ih =>
    intro ys
    rw [List.foldl_cons, mAdd_lastN C hC, ih (ys ++ [x]),
      List.append_assoc, List.singleton_append]

theorem cbInv_foldl (C : Nat) (hC : 0 < C) {α : Type} (xs : List α) :
    ∀ (cb : CircularBuffer α) (l : List α), cbInv C cb l →
    cbInv C (xs.foldl CircularBuffer.Add cb) (xs.foldl (mAdd C) l) := by
  induction xs with
  | nil => intro cb l hinv; exact hinv
  | cons x xs ih =>
    intro cb l hinv
    rw [List.foldl_cons, List.foldl_cons]
    exact ih _ _ (cbInv_add C hC cb l x hinv)

/-- Claim C7: for a circular buffer of capacity C greater than 0, after
any sequence of n Add calls GetAll returns exactly the last min(n, C)
added items oldest to newest (so once full each Add overwrites the
oldest item), and the stored count is min(n, C), never exceeding C. -/
theorem c7_circular_buffer_last_items {α : Type} (C : Nat) (xs : List α) (hC : 0 < C) :
    (xs.foldl CircularBuffer.Add (NewCircularBuffer α C)).GetAll
      = (xs.drop (xs.length - min xs.length C)).map some
    ∧ (xs.foldl CircularBuffer.Add (NewCircularBuffer α C)).count = min xs.length C
    ∧ (xs.foldl CircularBuffer.Add (NewCircularBuffer α C)).count ≤ C := by
  have hinv := cbInv_foldl C hC xs (NewCircularBuffer α C) [] (cbInv_new C hC)
  have hmodel : xs.foldl (mAdd C) [] = lastN C xs := by
    have h := foldl_mAdd_lastN C hC xs []
    simpa [lastN] using h
  rw [hmodel] at hinv
  refine ⟨?_, ?_, ?_⟩
  · rw [cbGetAll_eq C hC _ _ hinv]
    rfl
  · rw [hinv.2.2.1, lastN_len]
  · rw [hinv.2.2.1]
    exact hinv.2.2.2.1

/-- Concrete instance of claim C7: capacity 2, three inserts keep the
last two items in order. -/
theorem c7_circular_buffer_last_items_witness :
    0 < 2
    ∧ ([10, 20, 30].foldl CircularBuffer.Add (NewCircularBuffer Nat 2)).GetAll
        = [some 20, some 30] :=
  ⟨by decide,
   Eq.trans (c7_circular_buffer_last_items 2 [10, 20, 30] (by decide)).1 (by decide)⟩

/-! ## Staggered scheduling (monitorURL in monitor.go)

Go computes staggerDelay = (intervalDuration / targetCount) * index on
int64 time.Duration values: intervalDuration is the wrapping int64
product CheckIntervalSeconds * 1e9, the quotient is truncated int64
division, and the final product is again int64.  wrap64 is two's
complement wrap-around; targetCount (a slice length) and index (a loop
counter below it) are nonnegative and below 2^63, so their conversions
to time.Duration are exact. -/

def wrap64 (x : Int) : Int := (x + 2 ^ 63) % 2 ^ 64 - 2 ^ 63

def staggerDelayNS (intervalSeconds : Int) (targetCount index : Nat) : Int :=
  wrap64 ((wrap64 (intervalSeconds * 1000000000)).tdiv targetCount * index)

theorem wrap64_eq_self (x : Int) (h1 : -(2 ^ 63) ≤ x) (h2 : x < 2 ^ 63) : wrap64 x = x := by
  unfold wrap64
  rw [Int.emod_eq_of_lt (by omega) (by omega)]
  omega

theorem tdivCoe (a b : Nat) : (a : Int).tdiv (b : Int) = ((a / b : Nat) : Int) := rfl

/-- The int64 product CheckIntervalSeconds * 1e9 wraps negative for a
huge configured interval, carrying the whole stagger delay with it. -/
theorem wrap64OverflowExample : staggerDelayNS 10000000000 2 1 < 0 := by decide

/-- Claim C9 counterexample: with a 5 second interval and 6000000000
targets the integer division truncates to 0, so target indices 0 and 1
receive the same (zero) stagger delay and the delays are not pairwise
distinct. -/
theorem c9_stagger_counterexample :
    ¬ (∀ i j : Nat, i < 6000000000 → j < 6000000000 →
        staggerDelayNS 5 6000000000 i = staggerDelayNS 5 6000000000 j → i = j) := by
  intro h
  have h01 := h 0 1 (by decide) (by decide) (by decide)
  exact absurd h01 (by decide)

/-- Claim C9 (amended): the stagger delay of target index i is
(I / N) * i computed with wrapping int64 duration arithmetic and
truncated integer division; whenever the interval is positive, its
nanosecond value does not overflow int64, and the quotient is at least
one nanosecond (in particular whenever N is at most the interval in
nanoseconds), the N delays are pairwise distinct and all lie in the
half-open range from 0 to the interval.  When the quotient truncates to
0 all delays collapse to 0, and when the nanosecond product overflows
the delays can be negative (wrap64OverflowExample). -/
theorem c9_stagger_amended (intervalSeconds : Int) (targetCount : Nat)
    (hIpos : 0 < intervalSeconds)
    (hIbound : intervalSeconds * 1000000000 < 2 ^ 63)
    (hq : 1 ≤ (intervalSeconds * 1000000000).tdiv targetCount) :
    (∀ index : Nat, staggerDelayNS intervalSeconds targetCount index
        = wrap64 ((wrap64 (intervalSeconds * 1000000000)).tdiv targetCount * index))
    ∧ (∀ i j : Nat, i < targetCount → j < targetCount →
        staggerDelayNS intervalSeconds targetCount i
          = staggerDelayNS intervalSeconds targetCount j → i = j)
    ∧ (∀ i : Nat, i < targetCount →
        0 ≤ staggerDelayNS intervalSeconds targetCount i
        ∧ staggerDelayNS intervalSeconds targetCount i
            < intervalSeconds * 1000000000) := by
  have hInsPos : 0 < intervalSeconds * 1000000000 := by positivity
  have hwrapIns : wrap64 (intervalSeconds * 1000000000) = intervalSeconds * 1000000000 :=
    wrap64_eq_self _ (by omega) hIbound
  have hIns : intervalSeconds * 1000000000
      = (((intervalSeconds * 1000000000).toNat : Nat) : Int) :=
    (Int.toNat_of_nonneg (by omega)).symm
  set I9 : Nat := (intervalSeconds * 1000000000).toNat with hI9def
  have hI9lt : I9 < 2 ^ 63 := by
    have h2 := hIbound
    rw [hIns] at h2
    exact_mod_cast h2
  have hq9 : (intervalSeconds * 1000000000).tdiv targetCount
      = ((I9 / targetCount : Nat) : Int) := by
    rw [hIns, tdivCoe]
  have hq1 : 1 ≤ I9 / targetCount := by
    have h2 := hq
    rw [hq9] at h2
    exact_mod_cast h2
  have hqmul : I9 / targetCount * targetCount ≤ I9 := Nat.div_mul_le_self I9 targetCount
  have hdelay : ∀ i : Nat, i ≤ targetCount →
      staggerDelayNS intervalSeconds targetCount i
        = ((I9 / targetCount * i : Nat) : Int) := by
    intro i hi
    unfold staggerDelayNS
    rw [hwrapIns, hq9]
    rw [show ((I9 / targetCount : Nat) : Int) * (i : Int)
        = ((I9 / targetCount * i : Nat) : Int) by push_cast; ring]
    apply wrap64_eq_self
    · omega
    · have hle : I9 / targetCount * i ≤ I9 :=
        Nat.le_trans (Nat.mul_le_mul_left _ hi) hqmul
      exact_mod_cast Nat.lt_of_le_of_lt hle hI9lt
  refine ⟨fun _ => rfl, ?_, ?_⟩
  · intro i j hi hj heq
    rw [hdelay i (by omega), hdelay j (by omega)] at heq
    have heqn : I9 / targetCount * i = I9 / targetCount * j := by exact_mod_cast heq
    exact Nat.eq_of_mul_eq_mul_left (by omega) heqn
  · intro i hi
    rw [hdelay i (by omega)]
    constructor
    · exact_mod_cast Nat.zero_le _
    · rw [hIns]
      have hlt : I9 / targetCount * i < I9 :=
        calc I9 / targetCount * i
            < I9 / targetCount * i + I9 / targetCount := Nat.lt_add_of_pos_right (by omega)
          _ = I9 / targetCount * (i + 1) := (Nat.mul_succ _ i).symm
          _ ≤ I9 / targetCount * targetCount := Nat.mul_le_mul_left _ hi
          _ ≤ I9 := hqmul
      exact_mod_cast hlt

/-- Concrete instance of the amended claim C9: 5 second interval, 2
targets. -/
theorem c9_stagger_amended_witness :
    (0 : Int) < 5
    ∧ (5 : Int) * 1000000000 < 2 ^ 63
    ∧ (1 : Int) ≤ ((5 : Int) * 1000000000).tdiv 2
    ∧ 0 ≤ staggerDelayNS 5 2 1
    ∧ staggerDelayNS 5 2 1 < (5 : Int) * 1000000000
    ∧ staggerDelayNS 5 2 1 = 2500000000 :=
  ⟨by decide, by decide, by decide,
   ((c9_stagger_amended 5 2 (by decide) (by decide) (by decide)).2.2 1 (by decide)).1,
   ((c9_stagger_amended 5 2 (by decide) (by decide) (by decide)).2.2 1 (by decide)).2,
   by decide⟩

/-- Concrete instance of claim C5: a present but unparsable state file
yields a fresh state and the content moves to the backup name. -/
theorem c5_load_never_fatal_witness :
    ("state.json" : String) ≠ ""
    ∧ (LoadState (fun _ => none) ("20260101-000000")
        (fun p => if p = "state.json" then some "junk" else none) ("state.json") 100).1
        = NewServiceState 100
    ∧ (LoadState (fun _ => none) ("20260101-000000")
        (fun p => if p = "state.json" then some "junk" else none) ("state.json") 100).2
        ("state.json" ++ ".corrupted." ++ "20260101-000000") = some "junk" := by
  refine ⟨by decide, ?_, ?_⟩
  · exact ((c5_load_never_fatal (fun _ => none) "20260101-000000"
      (fun p => if p = "state.json" then some "junk" else none) "state.json" 100).2.2
      "junk" (by decide) rfl rfl).1
  · exact ((c5_load_never_fatal (fun _ => none) "20260101-000000"
      (fun p => if p = "state.json" then some "junk" else none) "state.json" 100).2.2
      "junk" (by decide) rfl rfl).2.1

/-- Concrete instance of claim C6: cleanup runs inside a successful save
and a successful load. -/
theorem c6_retention_cleanup_witness :
    ("p" : String) ≠ ""
    ∧ (NewServiceState 0).SaveState ("p") 100
        = some { (NewServiceState 0).CleanupOldData 100 with lastSaved := 100 }
    ∧ (LoadState (fun d => if d = "good" then some (NewServiceState 0) else none)
        ("ts") (fun p => if p = "p" then some "good" else none) ("p") 100).1
        = (NewServiceState 0).CleanupOldData 100 := by
  refine ⟨by decide, ?_, ?_⟩
  · have h := (c6_retention_cleanup.1 (NewServiceState 0) "p" 100
      { (NewServiceState 0).CleanupOldData 100 with lastSaved := 100 } rfl).1
    exact h ▸ rfl
  · exact (c6_retention_cleanup.2
      (fun d => if d = "good" then some (NewServiceState 0) else none)
      "ts" (fun p => if p = "p" then some "good" else none) "p" 100 "good"
      (NewServiceState 0) (by decide) rfl rfl).1
